import Mathlib

/-!
Verification development for the artemisia event bot (announcement engine,
one-shot reminder scheduler, and the interactive date/hour selection flow).

The repository contains three variants of the bot:
  * `src/index.js` lines 1-150, an early variant (no boot-sync, no reminders);
  * `src/index.js` lines 151-857, the main variant with the `silent` boot-sync
    flag, the scheduled-ping reminder store, and the AOO dropdown flow
    (definitions below suffixed `Idx`);
  * `src/unnamed/part_000`, a variant with window-bounded rules such as the
    AOO warn window `[end - 6h, end)` (definitions below suffixed `Part`).

Machine times are UTC epoch milliseconds, modelled as `Int` (JS `Date`
`.getTime()` values are exact integers in the relevant range).  The persisted
idempotency store (`state.json` top-level keys) is modelled as the list of
marked keys; `saveState()` runs after every mutation, so the durable store
always equals the in-memory store and a process restart reloads exactly the
store the previous poll left behind (persistence writes are modelled as
succeeding).
-/

/-! ## Character helpers for the `Type:` classifier regex -/

/-- ASCII lower-casing, the effect of JS `toLowerCase` (and of the `i` regex
flag) on the characters that can occur in a `[a-z0-9_]` / `[a-z_]` token. -/
def asciiLower (c : Char) : Char :=
  if 'A' ≤ c ∧ c ≤ 'Z' then Char.ofNat (c.toNat + 32) else c

/-- JS regex `\s` restricted to the ASCII whitespace characters (the exotic
Unicode space code points never occur in the texts of interest). -/
def isWsChar (c : Char) : Bool :=
  c = ' ' ∨ c = '\t' ∨ c = '\n' ∨ c = '\r' ∨ c = '\x0b' ∨ c = '\x0c'

/-- Character class of the captured token: `[a-z_]` under the `i` flag, and
additionally `[0-9]` when `digits` is true (`[a-z0-9_]`). -/
def isTokenChar (digits : Bool) (c : Char) : Bool :=
  let l := asciiLower c
  decide ('a' ≤ l ∧ l ≤ 'z') || decide (l = '_') ||
    (digits && decide ('0' ≤ l ∧ l ≤ '9'))

/-- Try to read the literal `Type:` (case-insensitive, as under the `i` flag)
at the head of the character list, returning the remainder on success. -/
def tryTypeHead : List Char → Option (List Char)
  | c1 :: c2 :: c3 :: c4 :: c5 :: rest =>
      if asciiLower c1 = 't' ∧ asciiLower c2 = 'y' ∧ asciiLower c3 = 'p' ∧
          asciiLower c4 = 'e' ∧ c5 = ':' then some rest else none
  | _ => none

/-- First match of `/Type:\s*([a-z0-9_]+)/i` (`digits = true`) or of
`/Type:\s*([a-z_]+)/i` (`digits = false`) in the text, with the captured
group lower-cased, mirroring `text.match(...)` followed by
`m[1].toLowerCase()`.  The scan advances one character at a time, exactly as
the JS regex engine searches for the earliest match position;  `\s*` and the
token class are disjoint, so no further backtracking arises. -/
def findTypeToken (digits : Bool) : List Char → Option String
  | [] => none
  | c :: cs =>
    match tryTypeHead (c :: cs) with
    | some rest =>
        let tok := (rest.dropWhile isWsChar).takeWhile (isTokenChar digits)
        if tok = [] then findTypeToken digits cs
        else some (String.mk (tok.map asciiLower))
    | none => findTypeToken digits cs

/-! ## Calendar events and the two classifiers -/

/-- A VEVENT as consumed by the bot.  `uid` and the three text fields may be
absent (`none`); `start` and `stop` are the event's `start` / `end`
timestamps in UTC epoch milliseconds (`end` is a reserved word in Lean). -/
structure CalEvent where
  uid : Option String
  description : Option String
  summary : Option String
  location : Option String
  start : Int
  stop : Int
deriving DecidableEq, Repr

/-- JS `a || b` for an optional string: `undefined`/`null` and the empty
string are falsy. -/
def jsOr (o : Option String) (d : String) : String :=
  match o with
  | some s => if s = "" then d else s
  | none => d

/-- Classifier of `src/index.js` (both variants there), `getEventType`:
`description.match(/Type:\s*([a-z_]+)/i)`, lower-cased group or null. -/
def getEventTypeIdx (description : String) : Option String :=
  findTypeToken false description.data

/-- Aggregated text of `src/unnamed/part_000`'s `getEventType`:
`[description, summary, location].filter(Boolean).join("\n")`. -/
def aggText (ev : CalEvent) : String :=
  String.intercalate "\n"
    ((([ev.description, ev.summary, ev.location].filterMap id)).filter
      (fun s => s ≠ ""))

/-- Classifier of `src/unnamed/part_000`, `getEventType` applied to an event
object: first match of `/Type:\s*([a-z0-9_]+)/i` in the aggregated
description/summary/location text, lower-cased, or null. -/
def getEventTypePart (ev : CalEvent) : Option String :=
  findTypeToken true (aggText ev).data

/-- Concrete event used in scratch checks and counterexamples: no uid, no
description, the type tag only in the summary. -/
def evSummaryOnly : CalEvent :=
  { uid := none
    description := none
    summary := some "Type: MGE"
    location := none
    start := 0
    stop := 0 }

/-! ## Decimal rendering and UTC calendar arithmetic

`isoDateUTC` and `formatUTC` stringify `getUTCFullYear` / `getUTCMonth` /
`getUTCDate` values.  The ECMAScript `Date` UTC decomposition is the
proleptic Gregorian calendar over days = floor(ms / 86400000); we use the
standard civil-from-days / days-from-civil algorithms. -/

/-- Decimal digits of a natural number, accumulator style (the rendering of
a nonnegative JS number in a template string).  Structural recursion on a
fuel bound so that the kernel can evaluate it; `fuel = n + 1` always
suffices since the value shrinks by a factor of ten each step. -/
def decNatAux : Nat → Nat → List Char → List Char
  | 0, _, acc => acc
  | fuel + 1, n, acc =>
    let d := Char.ofNat (48 + n % 10)
    if n < 10 then d :: acc else decNatAux fuel (n / 10) (d :: acc)

/-- Decimal string of a natural number. -/
def decNat (n : Nat) : String := String.mk (decNatAux (n + 1) n [])

/-- Decimal string of an integer (JS number-to-string for integral values). -/
def decInt (i : Int) : String :=
  if i < 0 then "-" ++ decNat i.natAbs else decNat i.natAbs

/-- JS `String.prototype.padStart(2, "0")`. -/
def pad2 (s : String) : String :=
  String.mk (List.replicate (2 - s.data.length) '0') ++ s

/-- Civil date (year, month 1-12, day 1-31) of a day number relative to
1970-01-01 (proleptic Gregorian, Howard Hinnant's civil-from-days). -/
def civilFromDays (z : Int) : Int × Nat × Nat :=
  let z2 := z + 719468
  let era := Int.fdiv z2 146097
  let doe := (z2 - era * 146097).toNat
  let yoe := (doe - doe / 1460 + doe / 36524 - doe / 146096) / 365
  let doy := doe - (365 * yoe + yoe / 4 - yoe / 100)
  let mp := (5 * doy + 2) / 153
  let d := doy - (153 * mp + 2) / 5 + 1
  let m := if mp < 10 then mp + 3 else mp - 9
  (era * 400 + yoe + (if m ≤ 2 then 1 else 0), m, d)

/-- Day number relative to 1970-01-01 of a civil date (days-from-civil);
inputs are the in-range values `Date.UTC` receives from the selection flow. -/
def daysFromCivil (y : Int) (m d : Nat) : Int :=
  let y2 := y - (if m ≤ 2 then 1 else 0)
  let era := Int.fdiv y2 400
  let yoe := (y2 - era * 400).toNat
  let mp := if 2 < m then m - 3 else m + 9
  let doy := (153 * mp + 2) / 5 + d - 1
  let doe := yoe * 365 + yoe / 4 - yoe / 100 + doy
  era * 146097 + (doe : Int) - 719468

/-- `Date.UTC(y, m - 1, d, h, 0, 0, 0)` in milliseconds (month given 1-12
here; the source passes the 0-11 month index `mm - 1`). -/
def utcMs (y : Int) (m d h : Nat) : Int :=
  daysFromCivil y m d * 86400000 + (h : Int) * 3600000

/-- `isoDateUTC(d)` of `src/index.js`: `yyyy-mm-dd` from the UTC fields of a
`Date` at the given epoch milliseconds, month and day zero-padded to two
digits, year rendered plainly. -/
def isoDateUTC (t : Int) : String :=
  let c := civilFromDays (Int.fdiv t 86400000)
  decInt c.1 ++ "-" ++ pad2 (decNat c.2.1) ++ "-" ++ pad2 (decNat c.2.2)

/-- `formatUTC(d)` of `src/index.js`: `yyyy-mm-dd hh:mi UTC`. -/
def formatUTC (t : Int) : String :=
  let hh := ((Int.fdiv t 3600000) % 24).toNat
  let mi := ((Int.fdiv t 60000) % 60).toNat
  isoDateUTC t ++ " " ++ pad2 (decNat hh) ++ ":" ++ pad2 (decNat mi) ++ " UTC"

/-- `makeKey(prefix, ev, suffix)` of `src/index.js`:
`prefix_uid_day_suffix` with `uid = ev.uid || "no_uid"` and
`day = isoDateUTC(new Date(ev.start))`. -/
def makeKey (pre : String) (ev : CalEvent) (suffix : String) : String :=
  pre ++ "_" ++ jsOr ev.uid "no_uid" ++ "_" ++ isoDateUTC ev.start ++ "_" ++ suffix

/-- Template-string interpolation of a possibly-absent uid (JS renders
`undefined` literally), used by `src/unnamed/part_000`'s keys. -/
def uidJs (ev : CalEvent) : String :=
  match ev.uid with
  | some u => u
  | none => "undefined"

/-- Concrete `ark_registration` event with uid `u1`, start at the epoch,
end two days later. -/
def evArk : CalEvent :=
  { uid := some "u1"
    description := some "Type: ark_registration"
    summary := none
    location := none
    start := 0
    stop := 172800000 }

/-! ## The announcement poll state machine

`runCheck` mutates the global `state` object and calls `saveState()` after
every mutation, so the store below is both the in-memory and the durable
idempotency store.  Each guarded rule block in the source has the shape

  if (!state[key] && cond) { if (!silent) await channel.send(msg); state[key] = true; saveState(); }

(`src/unnamed/part_000` has no `silent` flag, i.e. `silent = false`).
`channel.send` is awaited without a surrounding try/catch: a rejected send
propagates out of `runCheck` (it is caught and logged only by the caller of
the whole poll), skipping the marking of the current key and the rest of the
poll.  `ok` tells for each key whether the send for that block's message
succeeds; `sends` records every attempted send, labelled by the block's
idempotency key (each block sends one fixed message, so the key identifies
the call to the Notification Sink).  `marks` records the keys marked during
the poll, and `threw` is set once a send has rejected. -/

structure PollSt where
  store : List String
  marks : List String
  sends : List String
  threw : Bool
deriving DecidableEq, Repr

/-- One guarded rule block of `runCheck` (see the module comment above). -/
def applyRule (silent : Bool) (ok : String → Bool) (key : String)
    (cond : Bool) (st : PollSt) : PollSt :=
  if st.threw then st
  else if key ∈ st.store then st
  else if cond then
    if silent then
      { st with store := key :: st.store, marks := st.marks ++ [key] }
    else if ok key then
      { st with store := key :: st.store, marks := st.marks ++ [key], sends := st.sends ++ [key] }
    else
      { st with sends := st.sends ++ [key], threw := true }
  else st

/-- Per-event rule evaluation of the main `src/index.js` variant's
`runCheck` (lines 311-385): `ark_registration` has the open-at-start and
24h-before-end rules, `mge` the open-after-end and closed-24h-before-start
rules, `goldhead` the 24h-before-start rule.  `hoursBetween(now, t) <= 24 &&
> 0` is `0 < t - now ∧ t - now ≤ 86400000` in milliseconds (the float
division by 3600000 is order-preserving at these magnitudes). -/
def checkEventIdx (silent : Bool) (ok : String → Bool) (now : Int)
    (ev : CalEvent) (st : PollSt) : PollSt :=
  match getEventTypeIdx (ev.description.getD "") with
  | none => st
  | some ty =>
    let st :=
      if ty = "ark_registration" then
        let st := applyRule silent ok (makeKey "AOO" ev "open")
          (decide (ev.start ≤ now)) st
        applyRule silent ok (makeKey "AOO" ev "24h_before_end")
          (decide (0 < ev.stop - now ∧ ev.stop - now ≤ 86400000)) st
      else st
    let st :=
      if ty = "mge" then
        let st := applyRule silent ok (makeKey "mge" ev "open_after_end")
          (decide (ev.stop ≤ now)) st
        applyRule silent ok (makeKey "mge" ev "closed_24h_before_start")
          (decide (0 < ev.start - now ∧ ev.start - now ≤ 86400000)) st
      else st
    if ty = "goldhead" then
      applyRule silent ok (makeKey "goldhead" ev "24h_before_start")
        (decide (0 < ev.start - now ∧ ev.start - now ≤ 86400000)) st
    else st

/-- `runCheck(client, { silent })` of the main `src/index.js` variant,
started on the durable store `s`. -/
def runCheckIdx (silent : Bool) (ok : String → Bool) (now : Int)
    (events : List CalEvent) (s : List String) : PollSt :=
  events.foldl (fun st ev => checkEventIdx silent ok now ev st)
    { store := s, marks := [], sends := [], threw := false }

/-- Per-event rule evaluation of `src/unnamed/part_000`'s `runCheck`
(lines 146-204): `ark_registration` has open at start, the warn window
`[end - 6h, end)` and close at end; `mge` has open at `end + 24h`, the warn
window `[start - 48h, start - 24h)` and the close window
`[start - 24h, start)`.  Keys are `tag_uid` template strings without a day
component. -/
def checkEventPart (ok : String → Bool) (now : Int) (ev : CalEvent)
    (st : PollSt) : PollSt :=
  match getEventTypePart ev with
  | none => st
  | some ty =>
    let st :=
      if ty = "ark_registration" then
        let st := applyRule false ok ("aoo_open_" ++ uidJs ev)
          (decide (ev.start ≤ now)) st
        let st := applyRule false ok ("aoo_warn_" ++ uidJs ev)
          (decide (ev.stop - 21600000 ≤ now ∧ now < ev.stop)) st
        applyRule false ok ("aoo_close_" ++ uidJs ev)
          (decide (ev.stop ≤ now)) st
      else st
    if ty = "mge" then
      let st := applyRule false ok ("mge_open_" ++ uidJs ev)
        (decide (ev.stop + 86400000 ≤ now)) st
      let st := applyRule false ok ("mge_warn_" ++ uidJs ev)
        (decide (ev.start - 172800000 ≤ now ∧ now < ev.start - 86400000)) st
      applyRule false ok ("mge_close_" ++ uidJs ev)
        (decide (ev.start - 86400000 ≤ now ∧ now < ev.start)) st
    else st

/-- `runCheck(client)` of `src/unnamed/part_000`. -/
def runCheckPart (ok : String → Bool) (now : Int) (events : List CalEvent)
    (s : List String) : PollSt :=
  events.foldl (fun st ev => checkEventPart ok now ev st)
    { store := s, marks := [], sends := [], threw := false }

/-! ## Poll sequences

A poll is one `runCheck` invocation.  `saveState()` persists the store after
every mark, so a process restart between two polls reloads exactly the store
the previous poll produced: a sequence of polls spanning restarts is the
plain fold below. -/

/-- Inputs of one poll of the main `src/index.js` variant. -/
structure PollInput where
  silent : Bool
  now : Int
  events : List CalEvent
  ok : String → Bool

/-- Inputs of one poll of the `src/unnamed/part_000` variant. -/
structure PartInput where
  now : Int
  events : List CalEvent
  ok : String → Bool

def pollIdx (p : PollInput) (s : List String) : PollSt :=
  runCheckIdx p.silent p.ok p.now p.events s

def pollPart (p : PartInput) (s : List String) : PollSt :=
  runCheckPart p.ok p.now p.events s

/-- The per-poll outcomes of a sequence of polls, each poll starting from
the store the previous one persisted. -/
def pollTrace {α : Type} (poll : α → List String → PollSt) :
    List α → List String → List PollSt
  | [], _ => []
  | p :: ps, s => poll p s :: pollTrace poll ps (poll p s).store

/-! ## Scheduled pings (one-shot reminders) -/

/-- A `state.scheduled` entry. -/
structure Reminder where
  id : String
  channelId : String
  runAtMs : Int
  message : String
  sent : Bool
deriving DecidableEq, Repr

/-- `schedulePing({ channelId, runAtMs, message })` of `src/index.js`:
unconditionally appends a new unsent reminder and persists.  The id is
`channelId_runAtMs_<random hex>`; the random part is passed in as `rnd`. -/
def schedulePing (channelId : String) (runAtMs : Int) (message rnd : String)
    (scheduled : List Reminder) : List Reminder :=
  scheduled ++
    [{ id := channelId ++ "_" ++ decInt runAtMs ++ "_" ++ rnd, channelId := channelId, runAtMs := runAtMs, message := message, sent := false }]

/-- The guarded scheduling operation: every call site of `schedulePing`
(src/index.js lines 703-719) wraps it in `if (t > nowMs)`, which is the
spec's `schedule` operation rejecting fire times at or before now. -/
def scheduleReminder (nowMs runAtMs : Int) (channelId message rnd : String)
    (scheduled : List Reminder) : List Reminder :=
  if nowMs < runAtMs then schedulePing channelId runAtMs message rnd scheduled
  else scheduled

/-- `processScheduled(client, { silent })` of `src/index.js` (lines
265-297).  For every unsent due item the send is attempted inside a
try/catch (failure only logged), then the item is marked sent no matter
what; finally all sent items are pruned and the list persisted.  `sendOk`
gives the outcome of each attempted `ch.send`; the second component records
the attempted sends with their outcomes. -/
def processScheduled (silent : Bool) (sendOk : Reminder → Bool) (nowMs : Int)
    (scheduled : List Reminder) : List Reminder × List (Reminder × Bool) :=
  let marked := scheduled.map (fun it =>
    if ¬ it.sent ∧ it.runAtMs ≤ nowMs then { it with sent := true } else it)
  let sends := scheduled.filterMap (fun it =>
    if ¬ it.sent ∧ it.runAtMs ≤ nowMs then
      if silent then none else some (it, sendOk it)
    else none)
  (marked.filter (fun x => ¬ x.sent), sends)

/-! ## The date/hour dropdown flow -/

/-- Default ping text (`PING_TEXT` defaults to `@everyone`). -/
def PING : String := "@everyone"

/-- The 30-minute reminder message built in the hour-selection handler. -/
def msg30 (aooStartMs : Int) : String :=
  PING ++ "\nAOO starts in **30 minutes** — get ready! (Start: " ++ formatUTC aooStartMs ++ ")"

/-- The 10-minute reminder message built in the hour-selection handler. -/
def msg10 (aooStartMs : Int) : String :=
  PING ++ "\nAOO starts in **10 minutes** — be ready! (Start: " ++ formatUTC aooStartMs ++ ")"

/-- JS `String.prototype.split("-")` (structurally recursive so the kernel
can evaluate it; behaves as `String.splitOn "-"`). -/
def splitDashAux : List Char → List Char → List String
  | [], acc => [String.mk acc.reverse]
  | c :: cs, acc =>
    if c = '-' then String.mk acc.reverse :: splitDashAux cs []
    else splitDashAux cs (c :: acc)

def splitDash (s : String) : List String := splitDashAux s.data []

/-- Decimal parsing of a digit string, the behaviour of JS `Number` on the
values carried by the date and hour menus (structurally recursive version
of `String.toNat?`). -/
def parseDecAux : List Char → Nat → Option Nat
  | [], acc => some acc
  | c :: cs, acc =>
    if '0' ≤ c ∧ c ≤ '9' then parseDecAux cs (acc * 10 + (c.toNat - 48))
    else none

def parseDecNat (s : String) : Option Nat :=
  if s.data = [] then none else parseDecAux s.data 0

/-- `dateISO.split("-").map(Number)` destructured into `[yyyy, mm, dd]`.
The handler only receives the well-formed `yyyy-mm-dd` values produced by
`isoDateUTC` in the date menu, on which `Number` is plain decimal parsing. -/
def parseYMD (dateISO : String) : Nat × Nat × Nat :=
  match (splitDash dateISO).map (fun x => (parseDecNat x).getD 0) with
  | [y, m, d] => (y, m, d)
  | _ => (0, 0, 0)

/-- Option values of the hour select menu (`buildHourSelect`,
src/index.js lines 570-592): the hours `0..23` of the chosen UTC date whose
instant lies in `[startMs, endMs)`, as decimal strings; if none qualifies, a
single placeholder option with value `"none"`. -/
def buildHourSelectValues (startMs endMs : Int) (dateISO : String) : List String :=
  let ymd := parseYMD dateISO
  let options := (List.range 24).filterMap (fun h =>
    if startMs ≤ utcMs ymd.1 ymd.2.1 ymd.2.2 h ∧ utcMs ymd.1 ymd.2.1 ymd.2.2 h < endMs
    then some (decNat h) else none)
  if options = [] then ["none"] else options

/-- Replies of the hour-selection interaction handler. -/
inductive HourReply where
  | noValidHour
  | outsideWindow
  | selected (count : Nat)
deriving DecidableEq, Repr

/-- The `aoo_hour|startMs|endMs|dateISO` branch of the interaction handler
(src/index.js lines 670-733).  `hourVal` is `interaction.values?.[0]`;
`!hourStr || hourStr === "none"` rejects a missing value, the empty string
and the placeholder.  Otherwise the absolute start instant is computed with
`Date.UTC`, validated against the window, and the 30- and 10-minute
reminders are scheduled only if still in the future (`scheduledCount`
counts the ones scheduled). -/
def handleHourSelect (startMs endMs nowMs : Int) (dateISO : String)
    (hourVal : Option String) (channelId rnd30 rnd10 : String)
    (scheduled : List Reminder) : List Reminder × HourReply :=
  match hourVal with
  | none => (scheduled, .noValidHour)
  | some hourStr =>
    if hourStr = "" ∨ hourStr = "none" then (scheduled, .noValidHour)
    else
      let hour := (parseDecNat hourStr).getD 0
      let ymd := parseYMD dateISO
      let aooStartMs := utcMs ymd.1 ymd.2.1 ymd.2.2 hour
      if ¬ (startMs ≤ aooStartMs ∧ aooStartMs < endMs) then
        (scheduled, .outsideWindow)
      else
        let thirtyMs := aooStartMs - 30 * 60 * 1000
        let tenMs := aooStartMs - 10 * 60 * 1000
        let sch1 := scheduleReminder nowMs thirtyMs channelId (msg30 aooStartMs) rnd30 scheduled
        let c1 := if nowMs < thirtyMs then 1 else 0
        let sch2 := scheduleReminder nowMs tenMs channelId (msg10 aooStartMs) rnd10 sch1
        let c2 := if nowMs < tenMs then 1 else 0
        (sch2, .selected (c1 + c2))

/-! ## Concrete fixtures for witnesses and counterexamples -/

/-- A send function that always succeeds. -/
def okTrue : String → Bool := fun _ => true

/-- A send function that always fails (the transport rejects every send). -/
def okFalse : String → Bool := fun _ => false

/-- An `ark_registration` event without a uid, starting 2025-03-01T00:00Z,
ending 2025-03-03T00:00Z. -/
def evNoUid1 : CalEvent :=
  { uid := none
    description := some "Type: ark_registration"
    summary := none
    location := none
    start := 1740787200000
    stop := 1740960000000 }

/-- A distinct `ark_registration` event, also without a uid, starting later
the same UTC day (2025-03-01T02:00Z). -/
def evNoUid2 : CalEvent :=
  { uid := none
    description := some "Type: ark_registration"
    summary := none
    location := none
    start := 1740794400000
    stop := 1740960000000 }

/-- `evArk` with a different end time: a different event instance sharing
uid and UTC start day with `evArk`. -/
def evArk2 : CalEvent :=
  { uid := some "u1"
    description := some "Type: ark_registration"
    summary := none
    location := none
    start := 3600000
    stop := 259200000 }

/-- A concrete poll input over `evArk` with all sends succeeding. -/
def pollW : PollInput :=
  { silent := false, now := 86400000, events := [evArk], ok := okTrue }

/-- A concrete unsent reminder due at 500 ms. -/
def remW : Reminder :=
  { id := "id1", channelId := "chan", runAtMs := 500, message := "m", sent := false }

/-! ## Specification predicates for the poll state machine -/

/-- Properties every rule-evaluation step preserves: the store only grows
(no operation unsets a marked key), a key is marked only when absent from
the store and then ends up in it, a send is attempted only for a key absent
from the store, and the store stays duplicate-free. -/
def StepOK (f : PollSt → PollSt) : Prop :=
  ∀ st k,
    (k ∈ st.store → k ∈ (f st).store) ∧
    (k ∈ (f st).marks → k ∈ st.marks ∨ (k ∉ st.store ∧ k ∈ (f st).store)) ∧
    (k ∈ (f st).sends → k ∈ st.sends ∨ k ∉ st.store) ∧
    (st.store.Nodup → (f st).store.Nodup)

/-- Poll-level guarantees: membership in the pre-poll durable store persists,
a key marked during the poll was absent before it and is in the store after
it, a send during the poll happens only for a key absent before it, and a
duplicate-free store stays duplicate-free. -/
def PollGood {α : Type} (poll : α → List String → PollSt) : Prop :=
  ∀ p s k,
    (k ∈ s → k ∈ (poll p s).store) ∧
    (k ∈ (poll p s).marks → k ∉ s ∧ k ∈ (poll p s).store) ∧
    (k ∈ (poll p s).sends → k ∉ s) ∧
    (s.Nodup → (poll p s).store.Nodup)

/-- A step is quiet when it never sends and never throws (the behaviour of
every rule block in a suppressed pass). -/
def Quiet (f : PollSt → PollSt) : Prop :=
  ∀ st, (f st).sends = st.sends ∧ (f st).threw = st.threw

/-! ## Structural invariants of rule evaluation -/

lemma stepOK_id : StepOK (fun st => st) := by
  intro st k
  exact ⟨fun h => h, fun h => Or.inl h, fun h => Or.inl h, fun h => h⟩

lemma stepOK_applyRule (silent : Bool) (ok : String → Bool) (key : String)
    (cond : Bool) : StepOK (applyRule silent ok key cond) := by
  intro st k
  unfold applyRule
  split_ifs with h1 h2 h3 h4 h5 <;>
    refine ⟨?_, ?_, ?_, ?_⟩ <;>
    simp_all [List.mem_cons, List.mem_append, List.nodup_cons] <;>
    aesop

lemma stepOK_comp {f g : PollSt → PollSt} (hf : StepOK f) (hg : StepOK g) :
    StepOK (fun st => g (f st)) := by
  intro st k
  obtain ⟨f1, f2, f3, f4⟩ := hf st k
  obtain ⟨g1, g2, g3, g4⟩ := hg (f st) k
  refine ⟨fun h => g1 (f1 h), ?_, ?_, fun h => g4 (f4 h)⟩
  · intro h
    rcases g2 h with h | ⟨ha, hb⟩
    · rcases f2 h with h | ⟨ha, hb⟩
      · exact Or.inl h
      · exact Or.inr ⟨ha, g1 hb⟩
    · exact Or.inr ⟨fun hk => ha (f1 hk), hb⟩
  · intro h
    rcases g3 h with h | h
    · rcases f3 h with h | h
      · exact Or.inl h
      · exact Or.inr h
    · exact Or.inr (fun hk => h (f1 hk))

lemma stepOK_ite (c : Prop) [Decidable c] {f g : PollSt → PollSt}
    (hf : StepOK f) (hg : StepOK g) :
    StepOK (fun st => if c then f st else g st) := by
  intro st k
  by_cases h : c
  · simpa [h] using hf st k
  · simpa [h] using hg st k

lemma stepOK_checkEventIdx (silent : Bool) (ok : String → Bool) (now : Int)
    (ev : CalEvent) : StepOK (checkEventIdx silent ok now ev) := by
  intro st k
  unfold checkEventIdx
  cases hty : getEventTypeIdx (ev.description.getD "") with
  | none => exact stepOK_id st k
  | some ty =>
    exact stepOK_comp
      (stepOK_comp
        (stepOK_ite (ty = "ark_registration")
          (stepOK_comp (stepOK_applyRule _ _ _ _) (stepOK_applyRule _ _ _ _))
          stepOK_id)
        (stepOK_ite (ty = "mge")
          (stepOK_comp (stepOK_applyRule _ _ _ _) (stepOK_applyRule _ _ _ _))
          stepOK_id))
      (stepOK_ite (ty = "goldhead") (stepOK_applyRule _ _ _ _) stepOK_id)
      st k

lemma stepOK_checkEventPart (ok : String → Bool) (now : Int) (ev : CalEvent) :
    StepOK (checkEventPart ok now ev) := by
  intro st k
  unfold checkEventPart
  cases hty : getEventTypePart ev with
  | none => exact stepOK_id st k
  | some ty =>
    exact stepOK_comp
      (stepOK_ite (ty = "ark_registration")
        (stepOK_comp
          (stepOK_comp (stepOK_applyRule _ _ _ _) (stepOK_applyRule _ _ _ _))
          (stepOK_applyRule _ _ _ _))
        stepOK_id)
      (stepOK_ite (ty = "mge")
        (stepOK_comp
          (stepOK_comp (stepOK_applyRule _ _ _ _) (stepOK_applyRule _ _ _ _))
          (stepOK_applyRule _ _ _ _))
        stepOK_id)
      st k

lemma stepOK_foldl {α : Type} (step : α → PollSt → PollSt)
    (hstep : ∀ a, StepOK (step a)) (l : List α) :
    StepOK (fun st => l.foldl (fun s a => step a s) st) := by
  induction l with
  | nil => exact stepOK_id
  | cons a l ih =>
    intro st k
    have h := stepOK_comp (hstep a) ih
    simpa [List.foldl_cons] using h st k

lemma pollGood_of_stepOK {α : Type} (poll : α → List String → PollSt)
    (step : α → PollSt → PollSt)
    (hpoll : ∀ p s, poll p s
      = (fun st => st) ((step p) { store := s, marks := [], sends := [], threw := false }))
    (hstep : ∀ p, StepOK (step p)) : PollGood poll := by
  intro p s k
  have h := (hstep p) { store := s, marks := [], sends := [], threw := false } k
  rw [hpoll p s]
  obtain ⟨h1, h2, h3, h4⟩ := h
  refine ⟨h1, ?_, ?_, h4⟩
  · intro hm
    rcases h2 hm with hm | hm
    · simp at hm
    · exact hm
  · intro hsnd
    rcases h3 hsnd with hsnd | hsnd
    · simp at hsnd
    · exact hsnd

lemma pollGood_pollIdx : PollGood pollIdx := by
  refine pollGood_of_stepOK pollIdx
    (fun p st => p.events.foldl (fun s ev => checkEventIdx p.silent p.ok p.now ev s) st)
    (fun p s => rfl) ?_
  intro p
  exact stepOK_foldl _ (fun ev => stepOK_checkEventIdx p.silent p.ok p.now ev) p.events

lemma pollGood_pollPart : PollGood pollPart := by
  refine pollGood_of_stepOK pollPart
    (fun p st => p.events.foldl (fun s ev => checkEventPart p.ok p.now ev s) st)
    (fun p s => rfl) ?_
  intro p
  exact stepOK_foldl _ (fun ev => stepOK_checkEventPart p.ok p.now ev) p.events

lemma pollTrace_marks_zero {α : Type} {poll : α → List String → PollSt}
    (hp : PollGood poll) (ps : List α) :
    ∀ (s : List String) (k : String), k ∈ s →
      (pollTrace poll ps s).countP (fun o => decide (k ∈ o.marks)) = 0 := by
  induction ps with
  | nil => intro s k _; simp [pollTrace]
  | cons p ps ih =>
    intro s k hk
    have h := hp p s k
    have hnot : ¬ k ∈ (poll p s).marks := fun hm => (h.2.1 hm).1 hk
    simp [pollTrace, List.countP_cons, hnot, ih _ k (h.1 hk)]

lemma pollTrace_marks_atMostOnce {α : Type} {poll : α → List String → PollSt}
    (hp : PollGood poll) (ps : List α) :
    ∀ (s : List String) (k : String),
      (pollTrace poll ps s).countP (fun o => decide (k ∈ o.marks)) ≤ 1 := by
  induction ps with
  | nil => intro s k; simp [pollTrace]
  | cons p ps ih =>
    intro s k
    by_cases hm : k ∈ (poll p s).marks
    · have hin := ((hp p s k).2.1 hm).2
      have h0 := pollTrace_marks_zero hp ps (poll p s).store k hin
      simp [pollTrace, List.countP_cons, hm, h0]
    · have := ih (poll p s).store k
      simp only [pollTrace, List.countP_cons, hm]
      simpa using this

lemma pollTrace_sends_zero {α : Type} {poll : α → List String → PollSt}
    (hp : PollGood poll) (ps : List α) :
    ∀ (s : List String) (k : String), k ∈ s →
      ((pollTrace poll ps s).map (fun o => o.sends.count k)).sum = 0 := by
  induction ps with
  | nil => intro s k _; simp [pollTrace]
  | cons p ps ih =>
    intro s k hk
    have h := hp p s k
    have hnot : ¬ k ∈ (poll p s).sends := fun hm => (h.2.2.1 hm) hk
    simp [pollTrace, List.count_eq_zero.mpr hnot, ih _ k (h.1 hk)]

/-! ## Claim theorems -/

/-- Claim C1: across any sequence of announcement polls — the durable store
being threaded from each poll to the next, which also covers a process
restart reloading the persisted store, since every mark is persisted
immediately — each idempotency key is marked in at most one poll; a marked
key is never removed or unset by a poll; and a key already in the store is
never re-evaluated as due: the poll neither marks it again nor attempts a
send for it.  Both `runCheck` variants are covered. -/
theorem c1_marked_at_most_once (k : String) :
    (∀ (polls : List PollInput) (s0 : List String),
      (pollTrace pollIdx polls s0).countP (fun o => decide (k ∈ o.marks)) ≤ 1) ∧
    (∀ (polls : List PartInput) (s0 : List String),
      (pollTrace pollPart polls s0).countP (fun o => decide (k ∈ o.marks)) ≤ 1) ∧
    (∀ (p : PollInput) (s : List String), k ∈ s →
      k ∈ (pollIdx p s).store ∧ k ∉ (pollIdx p s).marks ∧ k ∉ (pollIdx p s).sends) ∧
    (∀ (p : PartInput) (s : List String), k ∈ s →
      k ∈ (pollPart p s).store ∧ k ∉ (pollPart p s).marks ∧ k ∉ (pollPart p s).sends) ∧
    (∀ (p : PollInput) (s : List String), k ∈ (pollIdx p s).marks → k ∉ s) ∧
    (∀ (p : PartInput) (s : List String), k ∈ (pollPart p s).marks → k ∉ s) := by
  refine ⟨?_, ?_, ?_, ?_, ?_, ?_⟩
  · intro polls s0
    exact pollTrace_marks_atMostOnce pollGood_pollIdx polls s0 k
  · intro polls s0
    exact pollTrace_marks_atMostOnce pollGood_pollPart polls s0 k
  · intro p s hk
    have h := pollGood_pollIdx p s k
    exact ⟨h.1 hk, fun hm => (h.2.1 hm).1 hk, fun hs => (h.2.2.1 hs) hk⟩
  · intro p s hk
    have h := pollGood_pollPart p s k
    exact ⟨h.1 hk, fun hm => (h.2.1 hm).1 hk, fun hs => (h.2.2.1 hs) hk⟩
  · intro p s hm
    exact ((pollGood_pollIdx p s k).2.1 hm).1
  · intro p s hm
    exact ((pollGood_pollPart p s k).2.1 hm).1

/-- Witness for C1 at a concrete poll: with the open key already in the
durable store, the poll keeps it in the store and neither re-marks it nor
sends for it. -/
theorem c1_witness :
    "AOO_u1_1970-01-01_open" ∈ (pollIdx pollW ["AOO_u1_1970-01-01_open"]).store ∧
    "AOO_u1_1970-01-01_open" ∉ (pollIdx pollW ["AOO_u1_1970-01-01_open"]).marks ∧
    "AOO_u1_1970-01-01_open" ∉ (pollIdx pollW ["AOO_u1_1970-01-01_open"]).sends :=
  (c1_marked_at_most_once "AOO_u1_1970-01-01_open").2.2.1 pollW
    ["AOO_u1_1970-01-01_open"] (by decide)

/-- Claim C7: the reminder-scheduling operation — the guarded
`if (t > nowMs) schedulePing(...)` pattern used at every `schedulePing`
call site — silently rejects any fire time at or before the current time:
nothing is appended to the scheduled list and the persisted state is
unchanged. -/
theorem c7_schedule_rejects_past (nowMs runAtMs : Int)
    (channelId message rnd : String) (scheduled : List Reminder)
    (h : runAtMs ≤ nowMs) :
    scheduleReminder nowMs runAtMs channelId message rnd scheduled = scheduled := by
  unfold scheduleReminder
  rw [if_neg]
  omega

/-- Witness for C7: scheduling one second in the past is a no-op. -/
theorem c7_witness :
    scheduleReminder 1000 999 "chan" "m" "r" [] = [] :=
  c7_schedule_rejects_past 1000 999 "chan" "m" "r" [] (by decide)

/-- Counterexample for C9: in the spec scenario (window 2025-03-01T00:00Z
to 2025-03-03T00:00Z, date 2025-03-01, hour 14, current time
2025-03-01T13:00Z) the 30-minute reminder time 13:30Z is still in the
future at 13:00Z, so the handler schedules TWO reminders (13:30Z and
13:50Z), not exactly one. -/
theorem c9_counterexample :
    ((handleHourSelect 1740787200000 1740960000000 1740834000000 "2025-03-01"
        (some "14") "chan" "r30" "r10" []).1.map (fun r => r.runAtMs))
      = [1740835800000, 1740837000000] ∧
    (handleHourSelect 1740787200000 1740960000000 1740834000000 "2025-03-01"
        (some "14") "chan" "r30" "r10" []).2 = HourReply.selected 2 := by
  decide

/-- Amended C9: the described outcome — only the 10-minute reminder,
firing 2025-03-01T13:50Z, scheduled and persisted — holds when the current
time lies in [13:30Z, 13:50Z), e.g. at 2025-03-01T13:40Z; at 13:00Z both
lead times are still in the future and both reminders are scheduled. -/
theorem c9_amended :
    ((handleHourSelect 1740787200000 1740960000000 1740836400000 "2025-03-01"
        (some "14") "chan" "r30" "r10" []).1.map (fun r => r.runAtMs))
      = [1740837000000] ∧
    (handleHourSelect 1740787200000 1740960000000 1740836400000 "2025-03-01"
        (some "14") "chan" "r30" "r10" []).2 = HourReply.selected 1 := by
  decide

/-- Counterexample for C2: in the announcement `runCheck`, the awaited
`channel.send` has no surrounding try/catch, so when the transport rejects
every send (`okFalse`), the due open trigger's send is attempted but the
key is NOT marked (the store stays empty), the poll aborts, and the same
trigger will be re-evaluated as due — contradicting "the key is marked
fired and persisted regardless of whether the send succeeds or fails". -/
theorem c2_counterexample :
    (runCheckIdx false okFalse 86400000 [evArk] []).sends = ["AOO_u1_1970-01-01_open"] ∧
    (runCheckIdx false okFalse 86400000 [evArk] []).store = [] ∧
    (runCheckIdx false okFalse 86400000 [evArk] []).threw = true := by
  decide

/-- Amended C2: the mark-regardless-of-send-outcome policy holds for the
scheduled-reminder processor (`processScheduled` wraps its send in a
try/catch, so the surviving list is independent of send outcomes), while in
the announcement `runCheck` a due unmarked trigger's send is attempted
first and the key is marked only when the send succeeds; a failed send
leaves the key unmarked and aborts the rest of the poll, so that trigger is
retried on a later poll. -/
theorem c2_mark_vs_send_outcome :
    (∀ (silent : Bool) (ok ok2 : Reminder → Bool) (now : Int) (sch : List Reminder),
      (processScheduled silent ok now sch).1 = (processScheduled silent ok2 now sch).1) ∧
    (∀ (ok : String → Bool) (key : String) (st : PollSt),
      st.threw = false → key ∉ st.store → ok key = true →
      (applyRule false ok key true st).store = key :: st.store ∧
      (applyRule false ok key true st).sends = st.sends ++ [key] ∧
      (applyRule false ok key true st).marks = st.marks ++ [key] ∧
      (applyRule false ok key true st).threw = false) ∧
    (∀ (ok : String → Bool) (key : String) (st : PollSt),
      st.threw = false → key ∉ st.store → ok key = false →
      (applyRule false ok key true st).store = st.store ∧
      (applyRule false ok key true st).sends = st.sends ++ [key] ∧
      (applyRule false ok key true st).marks = st.marks ∧
      (applyRule false ok key true st).threw = true) := by
  refine ⟨?_, ?_, ?_⟩
  · intro silent ok ok2 now sch
    rfl
  · intro ok key st h1 h2 h3
    simp [applyRule, h1, h2, h3]
  · intro ok key st h1 h2 h3
    simp [applyRule, h1, h2, h3]

/-- Witness for C2's amended theorem at a concrete rule block: a successful
send marks the key, a failing send leaves it unmarked and aborts. -/
theorem c2_witness :
    (applyRule false okTrue "k" true { store := [], marks := [], sends := [], threw := false }).store = ["k"] ∧
    (applyRule false okFalse "k" true { store := [], marks := [], sends := [], threw := false }).store = [] ∧
    (applyRule false okFalse "k" true { store := [], marks := [], sends := [], threw := false }).threw = true := by
  refine ⟨?_, ?_, ?_⟩
  · exact (c2_mark_vs_send_outcome.2.1 okTrue "k" _ rfl (by decide) rfl).1
  · exact (c2_mark_vs_send_outcome.2.2 okFalse "k" _ rfl (by decide) rfl).1
  · exact (c2_mark_vs_send_outcome.2.2 okFalse "k" _ rfl (by decide) rfl).2.2.2

/-- Everything a survivor of a `processScheduled` pass satisfies: it was in
the input, is unsent, and was not yet due at that pass's time. -/
lemma processScheduled_out_mem {silent : Bool} {ok : Reminder → Bool}
    {now : Int} {sch : List Reminder} {r : Reminder}
    (h : r ∈ (processScheduled silent ok now sch).1) :
    r ∈ sch ∧ r.sent = false ∧ ¬ r.runAtMs ≤ now := by
  unfold processScheduled at h
  simp only [List.mem_filter, List.mem_map] at h
  obtain ⟨⟨it, hit, hmap⟩, hsent⟩ := h
  by_cases hc : ¬ it.sent ∧ it.runAtMs ≤ now
  · rw [if_pos hc] at hmap
    subst hmap
    simp at hsent
  · rw [if_neg hc] at hmap
    subst hmap
    simp only [decide_not, Bool.not_eq_eq_eq_not, Bool.not_true] at hsent
    have hsent' : it.sent = false := by simpa using hsent
    refine ⟨hit, hsent', ?_⟩
    intro hdue
    exact hc ⟨by simp [hsent'], hdue⟩

/-- Each attempted send of a `processScheduled` pass is an input reminder. -/
lemma processScheduled_send_mem {silent : Bool} {ok : Reminder → Bool}
    {now : Int} {sch : List Reminder} {x : Reminder × Bool}
    (h : x ∈ (processScheduled silent ok now sch).2) : x.1 ∈ sch := by
  unfold processScheduled at h
  simp only [List.mem_filterMap] at h
  obtain ⟨it, hit, hmap⟩ := h
  by_cases hc : ¬ it.sent ∧ it.runAtMs ≤ now
  · rw [if_pos hc] at hmap
    cases silent with
    | true => simp at hmap
    | false =>
      simp only [Bool.false_eq_true, if_false] at hmap
      cases hmap
      exact hit
  · rw [if_neg hc] at hmap
    simp at hmap

/-- Claim C8: a reminder fired by a `processScheduled` pass (present,
unsent and due) has its send attempted (when not suppressed), is marked
sent regardless of the send outcome — the surviving list does not depend on
the send-outcome function — and is pruned from the persisted list, so any
later pass neither finds it nor attempts its send again. -/
theorem c8_fired_reminder_pruned (silent : Bool) (ok : Reminder → Bool)
    (now : Int) (sch : List Reminder) (r : Reminder)
    (hmem : r ∈ sch) (hunsent : r.sent = false) (hdue : r.runAtMs ≤ now) :
    (silent = false → (r, ok r) ∈ (processScheduled silent ok now sch).2) ∧
    (∀ ok2, (processScheduled silent ok now sch).1 = (processScheduled silent ok2 now sch).1) ∧
    r ∉ (processScheduled silent ok now sch).1 ∧
    (∀ (silent2 : Bool) (ok2 : Reminder → Bool) (now2 : Int),
      r ∉ ((processScheduled silent2 ok2 now2 (processScheduled silent ok now sch).1).2.map Prod.fst) ∧
      r ∉ (processScheduled silent2 ok2 now2 (processScheduled silent ok now sch).1).1) := by
  have hout : r ∉ (processScheduled silent ok now sch).1 := by
    intro hr
    exact (processScheduled_out_mem hr).2.2 hdue
  refine ⟨?_, fun ok2 => rfl, hout, ?_⟩
  · intro hsil
    subst hsil
    unfold processScheduled
    simp only [List.mem_filterMap]
    refine ⟨r, hmem, ?_⟩
    rw [if_pos ⟨by simp [hunsent], hdue⟩]
    simp
  · intro silent2 ok2 now2
    constructor
    · intro hr
      simp only [List.mem_map] at hr
      obtain ⟨x, hx, hx1⟩ := hr
      have := processScheduled_send_mem hx
      rw [hx1] at this
      exact hout this
    · intro hr
      exact hout (processScheduled_out_mem hr).1

/-- Witness for C8: a concrete due reminder is attempted, pruned, and never
re-sent. -/
theorem c8_witness :
    (remW, true) ∈ (processScheduled false (fun _ => true) 1000 [remW]).2 ∧
    remW ∉ (processScheduled false (fun _ => true) 1000 [remW]).1 :=
  ⟨(c8_fired_reminder_pruned false (fun _ => true) 1000 [remW] remW
      (by decide) (by decide) (by decide)).1 rfl,
   (c8_fired_reminder_pruned false (fun _ => true) 1000 [remW] remW
      (by decide) (by decide) (by decide)).2.2.1⟩

lemma quiet_id : Quiet (fun st => st) := fun _ => ⟨rfl, rfl⟩

lemma quiet_applyRule_silent (ok : String → Bool) (key : String) (cond : Bool) :
    Quiet (applyRule true ok key cond) := by
  intro st
  unfold applyRule
  split_ifs <;> simp_all

lemma quiet_comp {f g : PollSt → PollSt} (hf : Quiet f) (hg : Quiet g) :
    Quiet (fun st => g (f st)) := by
  intro st
  exact ⟨((hg (f st)).1).trans (hf st).1, ((hg (f st)).2).trans (hf st).2⟩

lemma quiet_ite (c : Prop) [Decidable c] {f g : PollSt → PollSt}
    (hf : Quiet f) (hg : Quiet g) : Quiet (fun st => if c then f st else g st) := by
  intro st
  by_cases h : c
  · simpa [h] using hf st
  · simpa [h] using hg st

lemma quiet_checkEventIdx (ok : String → Bool) (now : Int) (ev : CalEvent) :
    Quiet (checkEventIdx true ok now ev) := by
  intro st
  unfold checkEventIdx
  cases hty : getEventTypeIdx (ev.description.getD "") with
  | none => exact quiet_id st
  | some ty =>
    exact quiet_comp
      (quiet_comp
        (quiet_ite (ty = "ark_registration")
          (quiet_comp (quiet_applyRule_silent _ _ _) (quiet_applyRule_silent _ _ _))
          quiet_id)
        (quiet_ite (ty = "mge")
          (quiet_comp (quiet_applyRule_silent _ _ _) (quiet_applyRule_silent _ _ _))
          quiet_id))
      (quiet_ite (ty = "goldhead") (quiet_applyRule_silent _ _ _) quiet_id)
      st

lemma quiet_foldl {α : Type} (step : α → PollSt → PollSt)
    (hstep : ∀ a, Quiet (step a)) (l : List α) :
    Quiet (fun st => l.foldl (fun s a => step a s) st) := by
  induction l with
  | nil => exact quiet_id
  | cons a l ih =>
    intro st
    have h := quiet_comp (hstep a) ih
    simpa [List.foldl_cons] using h st

/-- A suppressed (`silent = true`) announcement pass makes zero calls to
the Notification Sink and cannot abort. -/
lemma runCheckIdx_silent_quiet (ok : String → Bool) (now : Int)
    (events : List CalEvent) (s : List String) :
    (runCheckIdx true ok now events s).sends = [] ∧
    (runCheckIdx true ok now events s).threw = false := by
  have h := quiet_foldl (checkEventIdx true ok now)
    (fun ev => quiet_checkEventIdx ok now ev) events
    { store := s, marks := [], sends := [], threw := false }
  exact h

/-- A due open trigger is marked by a suppressed pass over its event. -/
lemma runCheckIdx_silent_marks_open (ok : String → Bool) (now : Int)
    (ev : CalEvent)
    (hty : getEventTypeIdx (ev.description.getD "") = some "ark_registration")
    (hdue : ev.start ≤ now) :
    makeKey "AOO" ev "open" ∈ (runCheckIdx true ok now [ev] []).store := by
  have hfold : runCheckIdx true ok now [ev] []
      = checkEventIdx true ok now ev { store := [], marks := [], sends := [], threw := false } := by
    simp [runCheckIdx]
  rw [hfold]
  unfold checkEventIdx
  rw [hty]
  simp only [reduceIte, String.reduceEq]
  have hc : decide (ev.start ≤ now) = true := decide_eq_true hdue
  set st1 := applyRule true ok (makeKey "AOO" ev "open") (decide (ev.start ≤ now))
    { store := [], marks := [], sends := [], threw := false } with hst1
  have hmem : makeKey "AOO" ev "open" ∈ st1.store := by
    rw [hst1, hc]
    simp [applyRule]
  exact ((stepOK_applyRule true ok (makeKey "AOO" ev "24h_before_end")
    (decide (0 < ev.stop - now ∧ ev.stop - now ≤ 86400000))) st1
    (makeKey "AOO" ev "open")).1 hmem

/-- Claim C3: starting from an empty idempotency store with an event whose
open trigger is already due, the startup boot-sync pass (suppressed
`runCheck`) marks the open key while making zero Notification Sink calls,
and the immediately following normal pass neither sends for that key nor
marks it a second time: the key occurs exactly once in the resulting
durable store. -/
theorem c3_boot_sync (ev : CalEvent) (now now2 : Int) (ok ok2 : String → Bool)
    (hty : getEventTypeIdx (ev.description.getD "") = some "ark_registration")
    (hdue : ev.start ≤ now) :
    makeKey "AOO" ev "open" ∈ (runCheckIdx true ok now [ev] []).store ∧
    (runCheckIdx true ok now [ev] []).sends = [] ∧
    makeKey "AOO" ev "open"
      ∉ (runCheckIdx false ok2 now2 [ev] (runCheckIdx true ok now [ev] []).store).sends ∧
    makeKey "AOO" ev "open"
      ∉ (runCheckIdx false ok2 now2 [ev] (runCheckIdx true ok now [ev] []).store).marks ∧
    (runCheckIdx false ok2 now2 [ev] (runCheckIdx true ok now [ev] []).store).store.count
      (makeKey "AOO" ev "open") = 1 := by
  have hmem := runCheckIdx_silent_marks_open ok now ev hty hdue
  have hquiet := runCheckIdx_silent_quiet ok now [ev] []
  have hg1 := pollGood_pollIdx { silent := true, now := now, events := [ev], ok := ok }
    [] (makeKey "AOO" ev "open")
  have hg2 := pollGood_pollIdx { silent := false, now := now2, events := [ev], ok := ok2 }
    (runCheckIdx true ok now [ev] []).store (makeKey "AOO" ev "open")
  have hnodup1 : (runCheckIdx true ok now [ev] []).store.Nodup :=
    hg1.2.2.2 (by simp)
  refine ⟨hmem, hquiet.1, ?_, ?_, ?_⟩
  · exact fun hs => (hg2.2.2.1 hs) hmem
  · exact fun hm => (hg2.2.1 hm).1 hmem
  · exact List.count_eq_one_of_mem (hg2.2.2.2 hnodup1) (hg2.1 hmem)

/-- Witness for C3 at the concrete event `evArk`, one day after its start. -/
theorem c3_witness :
    makeKey "AOO" evArk "open" ∈ (runCheckIdx true okTrue 86400000 [evArk] []).store ∧
    (runCheckIdx true okTrue 86400000 [evArk] []).sends = [] :=
  ⟨(c3_boot_sync evArk 86400000 90000000 okTrue okTrue (by decide) (by decide)).1,
   (c3_boot_sync evArk 86400000 90000000 okTrue okTrue (by decide) (by decide)).2.1⟩

/-! ## Window-rule lemmas (claim C4) -/

lemma applyRule_cond_false (silent : Bool) (ok : String → Bool) (key : String)
    (st : PollSt) : applyRule silent ok key false st = st := by
  unfold applyRule
  split_ifs <;> simp_all

lemma applyRule_store_other {k key : String} (h : k ≠ key) (silent : Bool)
    (ok : String → Bool) (cond : Bool) (st : PollSt) :
    (k ∈ (applyRule silent ok key cond st).store ↔ k ∈ st.store) := by
  unfold applyRule
  split_ifs <;> simp [h]

lemma applyRule_sends_count_other {k key : String} (h : k ≠ key) (silent : Bool)
    (ok : String → Bool) (cond : Bool) (st : PollSt) :
    (applyRule silent ok key cond st).sends.count k = st.sends.count k := by
  unfold applyRule
  split_ifs <;> simp [List.count_append, h]

lemma applyRule_marks_count_other {k key : String} (h : k ≠ key) (silent : Bool)
    (ok : String → Bool) (cond : Bool) (st : PollSt) :
    (applyRule silent ok key cond st).marks.count k = st.marks.count k := by
  unfold applyRule
  split_ifs <;> simp [List.count_append, h]

lemma applyRule_ok_threw {ok : String → Bool} {key : String} (silent : Bool)
    (cond : Bool) (st : PollSt) (h : ok key = true) :
    (applyRule silent ok key cond st).threw = st.threw := by
  unfold applyRule
  split_ifs <;> simp_all

/-- The firing shape of a rule block: due, unmarked, send succeeding. -/
lemma applyRule_fire {ok : String → Bool} {key : String} {st : PollSt}
    (h1 : st.threw = false) (h2 : key ∉ st.store) (h3 : ok key = true) :
    applyRule false ok key true st
      = { store := key :: st.store, marks := st.marks ++ [key], sends := st.sends ++ [key], threw := false } := by
  simp [applyRule, h1, h2, h3]

lemma str_append_ne_of_ne {a b : String} (u : String)
    (hl : a.data.length = b.data.length) (h : a ≠ b) : a ++ u ≠ b ++ u := by
  intro he
  apply h
  have hd : a.data ++ u.data = b.data ++ u.data := by
    rw [← String.data_append, ← String.data_append, he]
  have hab : a.data = b.data := (List.append_inj hd hl).1
  cases a
  cases b
  exact congrArg String.mk hab

lemma uid_key_ne_open_warn (ev : CalEvent) :
    ("aoo_warn_" ++ uidJs ev) ≠ ("aoo_open_" ++ uidJs ev) :=
  str_append_ne_of_ne (uidJs ev) (by decide) (by decide)

lemma uid_key_ne_close_warn (ev : CalEvent) :
    ("aoo_warn_" ++ uidJs ev) ≠ ("aoo_close_" ++ uidJs ev) := by
  intro he
  have := congrArg (fun s => s.data.length) he
  simp only [String.data_append] at this
  simp at this

lemma pollTrace_marksCount_zero {α : Type} {poll : α → List String → PollSt}
    (hp : PollGood poll) (ps : List α) :
    ∀ (s : List String) (k : String), k ∈ s →
      ((pollTrace poll ps s).map (fun o => o.marks.count k)).sum = 0 := by
  induction ps with
  | nil => intro s k _; simp [pollTrace]
  | cons p ps ih =>
    intro s k hk
    have h := hp p s k
    have hnot : ¬ k ∈ (poll p s).marks := fun hm => (h.2.1 hm).1 hk
    simp [pollTrace, List.count_eq_zero.mpr hnot, ih _ k (h.1 hk)]

/-- An in-window poll over the event, starting with the warn key unmarked
and sends succeeding, fires the AOO warn rule exactly once and marks it. -/
lemma part_warn_fires (ev : CalEvent) (t : Int) (s : List String)
    (hty : getEventTypePart ev = some "ark_registration")
    (hw1 : ev.stop - 21600000 ≤ t) (hw2 : t < ev.stop)
    (hs : ("aoo_warn_" ++ uidJs ev) ∉ s) :
    (runCheckPart okTrue t [ev] s).sends.count ("aoo_warn_" ++ uidJs ev) = 1 ∧
    (runCheckPart okTrue t [ev] s).marks.count ("aoo_warn_" ++ uidJs ev) = 1 ∧
    ("aoo_warn_" ++ uidJs ev) ∈ (runCheckPart okTrue t [ev] s).store := by
  have hfold : runCheckPart okTrue t [ev] s
      = checkEventPart okTrue t ev { store := s, marks := [], sends := [], threw := false } := by
    simp [runCheckPart]
  rw [hfold]
  unfold checkEventPart
  rw [hty]
  simp only [reduceIte, String.reduceEq]
  have hc2 : decide (ev.stop - 21600000 ≤ t ∧ t < ev.stop) = true :=
    decide_eq_true ⟨hw1, hw2⟩
  have hc3 : decide (ev.stop ≤ t) = false := decide_eq_false (by omega)
  set wk := "aoo_warn_" ++ uidJs ev with hwk
  set st1 := applyRule false okTrue ("aoo_open_" ++ uidJs ev)
    (decide (ev.start ≤ t)) { store := s, marks := [], sends := [], threw := false } with hst1
  have h1store : wk ∉ st1.store := by
    rw [hst1]
    rw [applyRule_store_other (uid_key_ne_open_warn ev)]
    exact hs
  have h1threw : st1.threw = false := by
    rw [hst1, applyRule_ok_threw _ _ _ rfl]
  have h1sends : st1.sends.count wk = 0 := by
    rw [hst1, applyRule_sends_count_other (uid_key_ne_open_warn ev)]
    simp
  have h1marks : st1.marks.count wk = 0 := by
    rw [hst1, applyRule_marks_count_other (uid_key_ne_open_warn ev)]
    simp
  rw [hc2, hc3]
  rw [applyRule_cond_false]
  rw [applyRule_fire h1threw h1store rfl]
  simp [List.count_append, h1sends, h1marks]

lemma applyRule_marks_other {k key : String} (h : k ≠ key) (silent : Bool)
    (ok : String → Bool) (cond : Bool) (st : PollSt) :
    (k ∈ (applyRule silent ok key cond st).marks ↔ k ∈ st.marks) := by
  unfold applyRule
  split_ifs <;> simp [h]

lemma applyRule_sends_other {k key : String} (h : k ≠ key) (silent : Bool)
    (ok : String → Bool) (cond : Bool) (st : PollSt) :
    (k ∈ (applyRule silent ok key cond st).sends ↔ k ∈ st.sends) := by
  unfold applyRule
  split_ifs <;> simp [h]

/-- A poll outside the warn window leaves the warn key completely
untouched: no mark, no send, store membership unchanged. -/
lemma part_warn_quiet_outside (ev : CalEvent) (ok : String → Bool) (t : Int)
    (s : List String)
    (hty : getEventTypePart ev = some "ark_registration")
    (hout : t < ev.stop - 21600000 ∨ ev.stop ≤ t) :
    ("aoo_warn_" ++ uidJs ev) ∉ (runCheckPart ok t [ev] s).marks ∧
    ("aoo_warn_" ++ uidJs ev) ∉ (runCheckPart ok t [ev] s).sends ∧
    (("aoo_warn_" ++ uidJs ev) ∈ (runCheckPart ok t [ev] s).store ↔
      ("aoo_warn_" ++ uidJs ev) ∈ s) := by
  have hfold : runCheckPart ok t [ev] s
      = checkEventPart ok t ev { store := s, marks := [], sends := [], threw := false } := by
    simp [runCheckPart]
  rw [hfold]
  unfold checkEventPart
  rw [hty]
  simp only [reduceIte, String.reduceEq]
  have hc2 : decide (ev.stop - 21600000 ≤ t ∧ t < ev.stop) = false :=
    decide_eq_false (by omega)
  rw [hc2, applyRule_cond_false]
  refine ⟨?_, ?_, ?_⟩
  · rw [applyRule_marks_other (uid_key_ne_close_warn ev),
      applyRule_marks_other (uid_key_ne_open_warn ev)]
    simp
  · rw [applyRule_sends_other (uid_key_ne_close_warn ev),
      applyRule_sends_other (uid_key_ne_open_warn ev)]
    simp
  · rw [applyRule_store_other (uid_key_ne_close_warn ev),
      applyRule_store_other (uid_key_ne_open_warn ev)]

/-! ## The MGE window rules (rest of claim C4) -/

lemma uid_key_ne_open_mgewarn (ev : CalEvent) :
    ("mge_warn_" ++ uidJs ev) ≠ ("mge_open_" ++ uidJs ev) :=
  str_append_ne_of_ne (uidJs ev) (by decide) (by decide)

lemma uid_key_ne_close_mgewarn (ev : CalEvent) :
    ("mge_warn_" ++ uidJs ev) ≠ ("mge_close_" ++ uidJs ev) := by
  intro he
  have := congrArg (fun s => s.data.length) he
  simp only [String.data_append] at this
  simp at this

lemma uid_key_ne_open_mgeclose (ev : CalEvent) :
    ("mge_close_" ++ uidJs ev) ≠ ("mge_open_" ++ uidJs ev) := by
  intro he
  have := congrArg (fun s => s.data.length) he
  simp only [String.data_append] at this
  simp at this

lemma uid_key_ne_warn_mgeclose (ev : CalEvent) :
    ("mge_close_" ++ uidJs ev) ≠ ("mge_warn_" ++ uidJs ev) := by
  intro he
  have := congrArg (fun s => s.data.length) he
  simp only [String.data_append] at this
  simp at this

/-- A poll outside the MGE warn window `[start - 48h, start - 24h)` leaves
the MGE warn key untouched. -/
lemma part_mgewarn_quiet_outside (ev : CalEvent) (ok : String → Bool) (t : Int)
    (s : List String) (hty : getEventTypePart ev = some "mge")
    (hout : t < ev.start - 172800000 ∨ ev.start - 86400000 ≤ t) :
    ("mge_warn_" ++ uidJs ev) ∉ (runCheckPart ok t [ev] s).marks ∧
    ("mge_warn_" ++ uidJs ev) ∉ (runCheckPart ok t [ev] s).sends ∧
    (("mge_warn_" ++ uidJs ev) ∈ (runCheckPart ok t [ev] s).store ↔
      ("mge_warn_" ++ uidJs ev) ∈ s) := by
  have hfold : runCheckPart ok t [ev] s
      = checkEventPart ok t ev { store := s, marks := [], sends := [], threw := false } := by
    simp [runCheckPart]
  rw [hfold]
  unfold checkEventPart
  rw [hty]
  simp only [reduceIte, String.reduceEq]
  have hc2 : decide (ev.start - 172800000 ≤ t ∧ t < ev.start - 86400000) = false :=
    decide_eq_false (by omega)
  rw [hc2, applyRule_cond_false]
  refine ⟨?_, ?_, ?_⟩
  · rw [applyRule_marks_other (uid_key_ne_close_mgewarn ev),
      applyRule_marks_other (uid_key_ne_open_mgewarn ev)]
    simp
  · rw [applyRule_sends_other (uid_key_ne_close_mgewarn ev),
      applyRule_sends_other (uid_key_ne_open_mgewarn ev)]
    simp
  · rw [applyRule_store_other (uid_key_ne_close_mgewarn ev),
      applyRule_store_other (uid_key_ne_open_mgewarn ev)]

/-- An in-window poll fires the MGE warn rule exactly once and marks it. -/
lemma part_mgewarn_fires (ev : CalEvent) (t : Int) (s : List String)
    (hty : getEventTypePart ev = some "mge")
    (hw1 : ev.start - 172800000 ≤ t) (hw2 : t < ev.start - 86400000)
    (hs : ("mge_warn_" ++ uidJs ev) ∉ s) :
    (runCheckPart okTrue t [ev] s).sends.count ("mge_warn_" ++ uidJs ev) = 1 ∧
    (runCheckPart okTrue t [ev] s).marks.count ("mge_warn_" ++ uidJs ev) = 1 ∧
    ("mge_warn_" ++ uidJs ev) ∈ (runCheckPart okTrue t [ev] s).store := by
  have hfold : runCheckPart okTrue t [ev] s
      = checkEventPart okTrue t ev { store := s, marks := [], sends := [], threw := false } := by
    simp [runCheckPart]
  rw [hfold]
  unfold checkEventPart
  rw [hty]
  simp only [reduceIte, String.reduceEq]
  have hc2 : decide (ev.start - 172800000 ≤ t ∧ t < ev.start - 86400000) = true :=
    decide_eq_true ⟨hw1, hw2⟩
  have hc3 : decide (ev.start - 86400000 ≤ t ∧ t < ev.start) = false :=
    decide_eq_false (by omega)
  set wk := "mge_warn_" ++ uidJs ev with hwk
  set st1 := applyRule false okTrue ("mge_open_" ++ uidJs ev)
    (decide (ev.stop + 86400000 ≤ t)) { store := s, marks := [], sends := [], threw := false } with hst1
  have h1store : wk ∉ st1.store := by
    rw [hst1, applyRule_store_other (uid_key_ne_open_mgewarn ev)]
    exact hs
  have h1threw : st1.threw = false := by
    rw [hst1, applyRule_ok_threw _ _ _ rfl]
  have h1sends : st1.sends.count wk = 0 := by
    rw [hst1, applyRule_sends_count_other (uid_key_ne_open_mgewarn ev)]
    simp
  have h1marks : st1.marks.count wk = 0 := by
    rw [hst1, applyRule_marks_count_other (uid_key_ne_open_mgewarn ev)]
    simp
  rw [hc2, hc3]
  rw [applyRule_cond_false]
  rw [applyRule_fire h1threw h1store rfl]
  simp [List.count_append, h1sends, h1marks]

/-- A poll outside the MGE close window `[start - 24h, start)` leaves the
MGE close key untouched. -/
lemma part_mgeclose_quiet_outside (ev : CalEvent) (ok : String → Bool) (t : Int)
    (s : List String) (hty : getEventTypePart ev = some "mge")
    (hout : t < ev.start - 86400000 ∨ ev.start ≤ t) :
    ("mge_close_" ++ uidJs ev) ∉ (runCheckPart ok t [ev] s).marks ∧
    ("mge_close_" ++ uidJs ev) ∉ (runCheckPart ok t [ev] s).sends ∧
    (("mge_close_" ++ uidJs ev) ∈ (runCheckPart ok t [ev] s).store ↔
      ("mge_close_" ++ uidJs ev) ∈ s) := by
  have hfold : runCheckPart ok t [ev] s
      = checkEventPart ok t ev { store := s, marks := [], sends := [], threw := false } := by
    simp [runCheckPart]
  rw [hfold]
  unfold checkEventPart
  rw [hty]
  simp only [reduceIte, String.reduceEq]
  have hc3 : decide (ev.start - 86400000 ≤ t ∧ t < ev.start) = false :=
    decide_eq_false (by omega)
  rw [hc3, applyRule_cond_false]
  refine ⟨?_, ?_, ?_⟩
  · rw [applyRule_marks_other (uid_key_ne_warn_mgeclose ev),
      applyRule_marks_other (uid_key_ne_open_mgeclose ev)]
    simp
  · rw [applyRule_sends_other (uid_key_ne_warn_mgeclose ev),
      applyRule_sends_other (uid_key_ne_open_mgeclose ev)]
    simp
  · rw [applyRule_store_other (uid_key_ne_warn_mgeclose ev),
      applyRule_store_other (uid_key_ne_open_mgeclose ev)]

/-- An in-window poll fires the MGE close rule exactly once and marks it. -/
lemma part_mgeclose_fires (ev : CalEvent) (t : Int) (s : List String)
    (hty : getEventTypePart ev = some "mge")
    (hw1 : ev.start - 86400000 ≤ t) (hw2 : t < ev.start)
    (hs : ("mge_close_" ++ uidJs ev) ∉ s) :
    (runCheckPart okTrue t [ev] s).sends.count ("mge_close_" ++ uidJs ev) = 1 ∧
    (runCheckPart okTrue t [ev] s).marks.count ("mge_close_" ++ uidJs ev) = 1 ∧
    ("mge_close_" ++ uidJs ev) ∈ (runCheckPart okTrue t [ev] s).store := by
  have hfold : runCheckPart okTrue t [ev] s
      = checkEventPart okTrue t ev { store := s, marks := [], sends := [], threw := false } := by
    simp [runCheckPart]
  rw [hfold]
  unfold checkEventPart
  rw [hty]
  simp only [reduceIte, String.reduceEq]
  have hc2 : decide (ev.start - 172800000 ≤ t ∧ t < ev.start - 86400000) = false :=
    decide_eq_false (by omega)
  have hc3 : decide (ev.start - 86400000 ≤ t ∧ t < ev.start) = true :=
    decide_eq_true ⟨hw1, hw2⟩
  set wk := "mge_close_" ++ uidJs ev with hwk
  set st1 := applyRule false okTrue ("mge_open_" ++ uidJs ev)
    (decide (ev.stop + 86400000 ≤ t)) { store := s, marks := [], sends := [], threw := false } with hst1
  have h1store : wk ∉ st1.store := by
    rw [hst1, applyRule_store_other (uid_key_ne_open_mgeclose ev)]
    exact hs
  have h1threw : st1.threw = false := by
    rw [hst1, applyRule_ok_threw _ _ _ rfl]
  have h1sends : st1.sends.count wk = 0 := by
    rw [hst1, applyRule_sends_count_other (uid_key_ne_open_mgeclose ev)]
    simp
  have h1marks : st1.marks.count wk = 0 := by
    rw [hst1, applyRule_marks_count_other (uid_key_ne_open_mgeclose ev)]
    simp
  rw [hc2, hc3]
  rw [applyRule_cond_false]
  rw [applyRule_fire h1threw h1store rfl]
  simp [List.count_append, h1sends, h1marks]

/-- Claim C4: every window-bounded trigger rule of the `part_000`
`runCheck` — the AOO warn rule with window `[end - 6h, end)`, the MGE warn
rule with window `[start - 48h, start - 24h)` and the MGE close rule with
window `[start - 24h, start)` — never fires in a poll whose time lies
outside its half-open window (no send, no mark, no store change for its
key), and across any non-empty sequence of polls whose times all lie
inside the window (sends succeeding, key initially unmarked) it fires
exactly once in total: one send and one mark over the whole sequence. -/
theorem c4_window_rule :
    (∀ (ev : CalEvent) (ok : String → Bool) (t : Int) (s : List String),
      getEventTypePart ev = some "ark_registration" →
      (t < ev.stop - 21600000 ∨ ev.stop ≤ t) →
      ("aoo_warn_" ++ uidJs ev) ∉ (runCheckPart ok t [ev] s).marks ∧
      ("aoo_warn_" ++ uidJs ev) ∉ (runCheckPart ok t [ev] s).sends ∧
      (("aoo_warn_" ++ uidJs ev) ∈ (runCheckPart ok t [ev] s).store ↔
        ("aoo_warn_" ++ uidJs ev) ∈ s)) ∧
    (∀ (ev : CalEvent) (times : List Int) (s : List String),
      getEventTypePart ev = some "ark_registration" →
      times ≠ [] →
      (∀ t ∈ times, ev.stop - 21600000 ≤ t ∧ t < ev.stop) →
      ("aoo_warn_" ++ uidJs ev) ∉ s →
      ((pollTrace pollPart (times.map (fun t => { now := t, events := [ev], ok := okTrue })) s).map
          (fun o => o.sends.count ("aoo_warn_" ++ uidJs ev))).sum = 1 ∧
      ((pollTrace pollPart (times.map (fun t => { now := t, events := [ev], ok := okTrue })) s).map
          (fun o => o.marks.count ("aoo_warn_" ++ uidJs ev))).sum = 1) ∧
    (∀ (ev : CalEvent) (ok : String → Bool) (t : Int) (s : List String),
      getEventTypePart ev = some "mge" →
      (t < ev.start - 172800000 ∨ ev.start - 86400000 ≤ t) →
      ("mge_warn_" ++ uidJs ev) ∉ (runCheckPart ok t [ev] s).marks ∧
      ("mge_warn_" ++ uidJs ev) ∉ (runCheckPart ok t [ev] s).sends ∧
      (("mge_warn_" ++ uidJs ev) ∈ (runCheckPart ok t [ev] s).store ↔
        ("mge_warn_" ++ uidJs ev) ∈ s)) ∧
    (∀ (ev : CalEvent) (times : List Int) (s : List String),
      getEventTypePart ev = some "mge" →
      times ≠ [] →
      (∀ t ∈ times, ev.start - 172800000 ≤ t ∧ t < ev.start - 86400000) →
      ("mge_warn_" ++ uidJs ev) ∉ s →
      ((pollTrace pollPart (times.map (fun t => { now := t, events := [ev], ok := okTrue })) s).map
          (fun o => o.sends.count ("mge_warn_" ++ uidJs ev))).sum = 1 ∧
      ((pollTrace pollPart (times.map (fun t => { now := t, events := [ev], ok := okTrue })) s).map
          (fun o => o.marks.count ("mge_warn_" ++ uidJs ev))).sum = 1) ∧
    (∀ (ev : CalEvent) (ok : String → Bool) (t : Int) (s : List String),
      getEventTypePart ev = some "mge" →
      (t < ev.start - 86400000 ∨ ev.start ≤ t) →
      ("mge_close_" ++ uidJs ev) ∉ (runCheckPart ok t [ev] s).marks ∧
      ("mge_close_" ++ uidJs ev) ∉ (runCheckPart ok t [ev] s).sends ∧
      (("mge_close_" ++ uidJs ev) ∈ (runCheckPart ok t [ev] s).store ↔
        ("mge_close_" ++ uidJs ev) ∈ s)) ∧
    (∀ (ev : CalEvent) (times : List Int) (s : List String),
      getEventTypePart ev = some "mge" →
      times ≠ [] →
      (∀ t ∈ times, ev.start - 86400000 ≤ t ∧ t < ev.start) →
      ("mge_close_" ++ uidJs ev) ∉ s →
      ((pollTrace pollPart (times.map (fun t => { now := t, events := [ev], ok := okTrue })) s).map
          (fun o => o.sends.count ("mge_close_" ++ uidJs ev))).sum = 1 ∧
      ((pollTrace pollPart (times.map (fun t => { now := t, events := [ev], ok := okTrue })) s).map
          (fun o => o.marks.count ("mge_close_" ++ uidJs ev))).sum = 1) := by
  have once : ∀ (wk : String) (ev : CalEvent) (t : Int) (ts : List Int) (s : List String),
      (runCheckPart okTrue t [ev] s).sends.count wk = 1 →
      (runCheckPart okTrue t [ev] s).marks.count wk = 1 →
      wk ∈ (runCheckPart okTrue t [ev] s).store →
      ((pollTrace pollPart ((t :: ts).map (fun t2 => { now := t2, events := [ev], ok := okTrue })) s).map
          (fun o => o.sends.count wk)).sum = 1 ∧
      ((pollTrace pollPart ((t :: ts).map (fun t2 => { now := t2, events := [ev], ok := okTrue })) s).map
          (fun o => o.marks.count wk)).sum = 1 := by
    intro wk ev t ts s hsend hmark hstore0
    have hpoll : pollPart { now := t, events := [ev], ok := okTrue } s
        = runCheckPart okTrue t [ev] s := rfl
    have hstore : wk ∈ (pollPart { now := t, events := [ev], ok := okTrue } s).store := by
      rw [hpoll]
      exact hstore0
    constructor
    · have hz := pollTrace_sends_zero pollGood_pollPart
        (ts.map (fun t2 => ({ now := t2, events := [ev], ok := okTrue } : PartInput)))
        (pollPart { now := t, events := [ev], ok := okTrue } s).store wk hstore
      simp only [List.map_cons, pollTrace, List.sum_cons, hz, Nat.add_zero]
      rw [hpoll]
      exact hsend
    · have hz := pollTrace_marksCount_zero pollGood_pollPart
        (ts.map (fun t2 => ({ now := t2, events := [ev], ok := okTrue } : PartInput)))
        (pollPart { now := t, events := [ev], ok := okTrue } s).store wk hstore
      simp only [List.map_cons, pollTrace, List.sum_cons, hz, Nat.add_zero]
      rw [hpoll]
      exact hmark
  refine ⟨?_, ?_, ?_, ?_, ?_, ?_⟩
  · intro ev ok t s hty hout
    exact part_warn_quiet_outside ev ok t s hty hout
  · intro ev times s hty hne hwin hs
    cases times with
    | nil => exact absurd rfl hne
    | cons t ts =>
      have hw := hwin t (by simp)
      have hfire := part_warn_fires ev t s hty hw.1 hw.2 hs
      exact once _ ev t ts s hfire.1 hfire.2.1 hfire.2.2
  · intro ev ok t s hty hout
    exact part_mgewarn_quiet_outside ev ok t s hty hout
  · intro ev times s hty hne hwin hs
    cases times with
    | nil => exact absurd rfl hne
    | cons t ts =>
      have hw := hwin t (by simp)
      have hfire := part_mgewarn_fires ev t s hty hw.1 hw.2 hs
      exact once _ ev t ts s hfire.1 hfire.2.1 hfire.2.2
  · intro ev ok t s hty hout
    exact part_mgeclose_quiet_outside ev ok t s hty hout
  · intro ev times s hty hne hwin hs
    cases times with
    | nil => exact absurd rfl hne
    | cons t ts =>
      have hw := hwin t (by simp)
      have hfire := part_mgeclose_fires ev t s hty hw.1 hw.2 hs
      exact once _ ev t ts s hfire.1 hfire.2.1 hfire.2.2

/-- Witness for C4: the concrete event ending 2025-03-03T00:00Z, polled at
7 hours before the end (outside the 6-hour window, nothing happens) and
twice inside the window (5h and 4h before the end): one send in total. -/
theorem c4_witness :
    ("aoo_warn_undefined" ∉ (runCheckPart okTrue 1740934800000 [evNoUid1] []).sends) ∧
    ((pollTrace pollPart ([1740942000000, 1740945600000].map
        (fun t => { now := t, events := [evNoUid1], ok := okTrue })) []).map
      (fun o => o.sends.count "aoo_warn_undefined")).sum = 1 :=
  ⟨(c4_window_rule.1 evNoUid1 okTrue 1740934800000 [] (by decide)
      (by decide)).2.1,
   (c4_window_rule.2.1 evNoUid1 [1740942000000, 1740945600000] [] (by decide)
      (by decide) (by decide) (by decide)).1⟩

/-! ## Classifier lemmas (claim C5) -/

/-- Every character of a captured token is a lower-case letter, a digit or
an underscore, and the token is non-empty. -/
lemma findTypeToken_token_shape (digits : Bool) :
    ∀ (cs : List Char) (t : String), findTypeToken digits cs = some t →
      t.data ≠ [] ∧
      ∀ c ∈ t.data, ('a' ≤ c ∧ c ≤ 'z') ∨ ('0' ≤ c ∧ c ≤ '9') ∨ c = '_' := by
  intro cs
  induction cs with
  | nil => intro t h; simp [findTypeToken] at h
  | cons c cs ih =>
    intro t h
    unfold findTypeToken at h
    cases htp : tryTypeHead (c :: cs) with
    | none =>
      rw [htp] at h
      dsimp only at h
      exact ih t h
    | some rest =>
      rw [htp] at h
      dsimp only at h
      by_cases hemp : (rest.dropWhile isWsChar).takeWhile (isTokenChar digits) = []
      · rw [if_pos hemp] at h
        exact ih t h
      · rw [if_neg hemp] at h
        cases h
        constructor
        · simpa using hemp
        · intro d hd
          simp only [String.data] at hd
          simp only [List.mem_map] at hd
          obtain ⟨c0, hc0, hlow⟩ := hd
          have htok : isTokenChar digits c0 = true := List.mem_takeWhile_imp hc0
          subst hlow
          unfold isTokenChar at htok
          simp only [Bool.or_eq_true, Bool.and_eq_true, decide_eq_true_eq] at htok
          rcases htok with (h | h) | ⟨_, h⟩
          · exact Or.inl h
          · exact Or.inr (Or.inr h)
          · exact Or.inr (Or.inl h)

/-- Counterexample for C5: the `src/index.js` classifier applies
`/Type:\s*([a-z_]+)/i` to the description alone, not
`/Type:\s*([a-z0-9_]+)/i` to the aggregated text: on `Type: top5` it
truncates the token to `top` (the spec pattern captures `top5`), and an
event carrying its tag only in the summary is classified as having no type
even though the aggregated text contains `Type: MGE`. -/
theorem c5_counterexample :
    getEventTypeIdx "Type: top5" = some "top" ∧
    findTypeToken true "Type: top5".data = some "top5" ∧
    (some "top" : Option String) ≠ some "top5" ∧
    getEventTypeIdx (evSummaryOnly.description.getD "") = none ∧
    getEventTypePart evSummaryOnly = some "mge" := by
  decide

/-- Amended C5: the `part_000` classifier applies
`/Type:\s*([a-z0-9_]+)/i` to the aggregated description/summary/location
text exactly as specified, while the `src/index.js` classifier applies
`/Type:\s*([a-z_]+)/i` (no digits) to the description field alone.  Both
are pure total functions returning a non-empty lower-cased token over
`[a-z0-9_]` or no type, and an entry classified as having no type is
skipped entirely by the downstream rules of its variant. -/
theorem c5_classifier_contract :
    (∀ ev : CalEvent, getEventTypePart ev = findTypeToken true (aggText ev).data) ∧
    (∀ s : String, getEventTypeIdx s = findTypeToken false s.data) ∧
    (∀ (digits : Bool) (cs : List Char) (t : String),
      findTypeToken digits cs = some t →
      t.data ≠ [] ∧
      ∀ c ∈ t.data, ('a' ≤ c ∧ c ≤ 'z') ∨ ('0' ≤ c ∧ c ≤ '9') ∨ c = '_') ∧
    (∀ (ok : String → Bool) (now : Int) (ev : CalEvent) (st : PollSt),
      getEventTypePart ev = none → checkEventPart ok now ev st = st) ∧
    (∀ (silent : Bool) (ok : String → Bool) (now : Int) (ev : CalEvent) (st : PollSt),
      getEventTypeIdx (ev.description.getD "") = none →
      checkEventIdx silent ok now ev st = st) := by
  refine ⟨fun ev => rfl, fun s => rfl, findTypeToken_token_shape, ?_, ?_⟩
  · intro ok now ev st hty
    unfold checkEventPart
    rw [hty]
  · intro silent ok now ev st hty
    unfold checkEventIdx
    rw [hty]

/-- Witness for C5's amended theorem: the token of a concrete tagged text
is non-empty and over the allowed alphabet, and an untyped event is skipped
by a poll step. -/
theorem c5_witness :
    ("mge" : String).data ≠ [] ∧
    checkEventPart okTrue 0 { uid := none, description := some "hello", summary := none, location := none, start := 0, stop := 0 } { store := [], marks := [], sends := [], threw := false } = { store := [], marks := [], sends := [], threw := false } :=
  ⟨(c5_classifier_contract.2.2.1 true "Type: mge".data "mge" (by decide)).1,
   c5_classifier_contract.2.2.2.1 okTrue 0 _ _ (by decide)⟩

/-! ## Idempotency-key lemmas (claim C6) -/

lemma digitChar_range (n : Nat) :
    '0' ≤ Char.ofNat (48 + n % 10) ∧ Char.ofNat (48 + n % 10) ≤ '9' := by
  have h : n % 10 < 10 := Nat.mod_lt _ (by omega)
  set r := n % 10 with hr
  clear_value r
  interval_cases r <;> exact (by decide)

lemma decNatAux_mem :
    ∀ (fuel n : Nat) (acc : List Char) (c : Char), c ∈ decNatAux fuel n acc →
      c ∈ acc ∨ ('0' ≤ c ∧ c ≤ '9') := by
  intro fuel
  induction fuel with
  | zero => intro n acc c h; exact Or.inl h
  | succ fuel ih =>
    intro n acc c h
    unfold decNatAux at h
    by_cases hn : n < 10
    · rw [if_pos hn] at h
      rcases List.mem_cons.mp h with h | h
      · exact Or.inr (h ▸ digitChar_range n)
      · exact Or.inl h
    · rw [if_neg hn] at h
      rcases ih (n / 10) _ c h with h | h
      · rcases List.mem_cons.mp h with h | h
        · exact Or.inr (h ▸ digitChar_range n)
        · exact Or.inl h
      · exact Or.inr h

lemma decNat_no_underscore (n : Nat) : '_' ∉ (decNat n).data := by
  intro h
  rcases decNatAux_mem _ _ _ _ h with h | h
  · simp at h
  · revert h
    decide

lemma decInt_no_underscore (i : Int) : '_' ∉ (decInt i).data := by
  unfold decInt
  split_ifs with h
  · intro hm
    rw [String.data_append] at hm
    rcases List.mem_append.mp hm with hm | hm
    · revert hm
      decide
    · exact decNat_no_underscore _ hm
  · exact decNat_no_underscore _

lemma pad2_no_underscore (s : String) (h : '_' ∉ s.data) :
    '_' ∉ (pad2 s).data := by
  unfold pad2
  intro hm
  rw [String.data_append] at hm
  rcases List.mem_append.mp hm with hm | hm
  · have := List.eq_of_mem_replicate hm
    simp at this
  · exact h hm

lemma isoDateUTC_no_underscore (t : Int) : '_' ∉ (isoDateUTC t).data := by
  unfold isoDateUTC
  intro hm
  simp only [String.data_append] at hm
  simp only [List.mem_append, List.append_assoc] at hm
  rcases hm with (hm | hm | hm | hm | hm)
  · exact decInt_no_underscore _ hm
  · simp at hm
  · exact pad2_no_underscore _ (decNat_no_underscore _) hm
  · simp at hm
  · exact pad2_no_underscore _ (decNat_no_underscore _) hm

/-- If a separator character occurs in neither left part, splitting at its
first occurrence is unambiguous. -/
lemma sep_unique :
    ∀ (a b x y : List Char), '_' ∉ a → '_' ∉ b →
      a ++ '_' :: x = b ++ '_' :: y → a = b ∧ x = y := by
  intro a
  induction a with
  | nil =>
    intro b x y _ hb h
    cases b with
    | nil =>
      simp only [List.nil_append] at h
      exact ⟨rfl, List.tail_eq_of_cons_eq h⟩
    | cons d bs =>
      simp only [List.nil_append, List.cons_append] at h
      have hd : '_' = d := List.head_eq_of_cons_eq h
      exact absurd (hd ▸ List.mem_cons_self d bs) hb
  | cons c as ih =>
    intro b x y ha hb h
    cases b with
    | nil =>
      simp only [List.cons_append, List.nil_append] at h
      have hc : c = '_' := List.head_eq_of_cons_eq h
      exact absurd (hc ▸ List.mem_cons_self c as) ha
    | cons d bs =>
      simp only [List.cons_append] at h
      have hcd : c = d := List.head_eq_of_cons_eq h
      have htl := List.tail_eq_of_cons_eq h
      have hrec := ih bs x y (fun hm => ha (List.mem_cons_of_mem _ hm))
        (fun hm => hb (List.mem_cons_of_mem _ hm)) htl
      exact ⟨by rw [hcd, hrec.1], hrec.2⟩

lemma str_data_inj {a b : String} (h : a.data = b.data) : a = b := by
  cases a
  cases b
  exact congrArg String.mk h

/-- Counterexample for C6: two distinct event instances — different start
instants, both lacking a uid (so both fall back to the `no_uid` sentinel) —
on the same UTC start day produce the SAME idempotency key, contradicting
"keys built for different event instances are never equal". -/
theorem c6_counterexample :
    evNoUid1 ≠ evNoUid2 ∧ evNoUid1.start ≠ evNoUid2.start ∧
    makeKey "AOO" evNoUid1 "open" = makeKey "AOO" evNoUid2 "open" := by
  decide

/-- Amended C6: key construction is deterministic and, for a fixed rule
(prefix and suffix), two keys coincide exactly when the uid-or-sentinel
strings and the UTC start-day strings coincide.  Hence keys of events with
distinct uids, or with the same uid on distinct UTC start days, never
collide — but distinct event instances sharing the uid-or-sentinel (for
example two events both missing a uid) and the UTC start day collide. -/
theorem c6_key_deterministic_injective (pre sfx : String) (ev1 ev2 : CalEvent) :
    makeKey pre ev1 sfx = makeKey pre ev2 sfx ↔
      (jsOr ev1.uid "no_uid" = jsOr ev2.uid "no_uid" ∧
        isoDateUTC ev1.start = isoDateUTC ev2.start) := by
  constructor
  · intro h
    unfold makeKey at h
    have hd := congrArg (fun s : String => s.data.reverse) h
    simp only [String.data_append, List.reverse_append, List.append_assoc,
      List.singleton_append, List.reverse_cons, List.reverse_nil,
      List.nil_append, List.cons_append] at hd
    have h2 := List.append_cancel_left hd
    have h3 := List.tail_eq_of_cons_eq h2
    have hsep := sep_unique _ _ _ _
      (fun hm => isoDateUTC_no_underscore ev1.start (List.mem_reverse.mp hm))
      (fun hm => isoDateUTC_no_underscore ev2.start (List.mem_reverse.mp hm))
      h3
    have hdays : isoDateUTC ev1.start = isoDateUTC ev2.start :=
      str_data_inj (List.reverse_injective hsep.1)
    have hlen : (jsOr ev1.uid "no_uid").data.reverse.length
        = (jsOr ev2.uid "no_uid").data.reverse.length := by
      have := congrArg List.length hsep.2
      simp only [List.length_append, List.length_cons] at this
      omega
    have huid : jsOr ev1.uid "no_uid" = jsOr ev2.uid "no_uid" :=
      str_data_inj (List.reverse_injective (List.append_inj hsep.2 hlen).1)
    exact ⟨huid, hdays⟩
  · intro h
    unfold makeKey
    rw [h.1, h.2]

/-- Witness for C6: two distinct events with the same uid and the same UTC
start day get the same key (determinism over the key ingredients). -/
theorem c6_witness : makeKey "AOO" evArk "open" = makeKey "AOO" evArk2 "open" :=
  (c6_key_deterministic_injective "AOO" "open" evArk evArk2).mpr
    ⟨by decide, by decide⟩

/-- Claim C10: when no hour 0..23 of the chosen UTC date lies inside the
event window, the hour menu consists of exactly the single placeholder
option `"none"`; and selecting the placeholder (or having no value at all)
makes the handler reply with a rejection and schedule nothing — the
scheduled list is returned unchanged, so nothing new is persisted. -/
theorem c10_placeholder_schedules_nothing :
    (∀ (startMs endMs : Int) (dateISO : String),
      (∀ h, h < 24 →
        ¬ (startMs ≤ utcMs (parseYMD dateISO).1 (parseYMD dateISO).2.1 (parseYMD dateISO).2.2 h ∧
           utcMs (parseYMD dateISO).1 (parseYMD dateISO).2.1 (parseYMD dateISO).2.2 h < endMs)) →
      buildHourSelectValues startMs endMs dateISO = ["none"]) ∧
    (∀ (startMs endMs nowMs : Int) (dateISO channelId rnd30 rnd10 : String)
      (sch : List Reminder),
      handleHourSelect startMs endMs nowMs dateISO (some "none") channelId rnd30 rnd10 sch
        = (sch, HourReply.noValidHour)) ∧
    (∀ (startMs endMs nowMs : Int) (dateISO channelId rnd30 rnd10 : String)
      (sch : List Reminder),
      handleHourSelect startMs endMs nowMs dateISO none channelId rnd30 rnd10 sch
        = (sch, HourReply.noValidHour)) := by
  refine ⟨?_, ?_, ?_⟩
  · intro startMs endMs dateISO hno
    unfold buildHourSelectValues
    have hempty : (List.range 24).filterMap (fun h =>
        if startMs ≤ utcMs (parseYMD dateISO).1 (parseYMD dateISO).2.1 (parseYMD dateISO).2.2 h ∧
           utcMs (parseYMD dateISO).1 (parseYMD dateISO).2.1 (parseYMD dateISO).2.2 h < endMs
        then some (decNat h) else none) = [] := by
      rw [List.filterMap_eq_nil_iff]
      intro h hh
      rw [if_neg (hno h (List.mem_range.mp hh))]
    dsimp only
    rw [hempty]
    simp
  · intro startMs endMs nowMs dateISO channelId rnd30 rnd10 sch
    simp [handleHourSelect]
  · intro startMs endMs nowMs dateISO channelId rnd30 rnd10 sch
    rfl

/-- Witness for C10: the date 2025-03-05 lies entirely outside the window
2025-03-01T00:00Z to 2025-03-03T00:00Z, so the menu degenerates to the
placeholder, and selecting the placeholder leaves the state unchanged. -/
theorem c10_witness :
    buildHourSelectValues 1740787200000 1740960000000 "2025-03-05" = ["none"] ∧
    handleHourSelect 1740787200000 1740960000000 1740834000000 "2025-03-05"
      (some "none") "chan" "r30" "r10" [] = ([], HourReply.noValidHour) :=
  ⟨c10_placeholder_schedules_nothing.1 1740787200000 1740960000000 "2025-03-05"
      (by decide),
   c10_placeholder_schedules_nothing.2.1 1740787200000 1740960000000
      1740834000000 "2025-03-05" "chan" "r30" "r10" []⟩
